import Mathlib

/-! Video compression optimizer: quality metrics and parameter recommendation.

A shallow embedding of `cpp_src/video_processor.cpp` and `cpp_src/python_bindings.cpp`.

Numbers. C++ `float` and `double` values are modelled in exact arithmetic over a linearly
ordered field `K` (executable at `K = ℚ`, and instantiated at `K = ℝ` where the real square
root and logarithm are needed), extended with the three IEEE specials NaN, -inf, +inf
(`Flt K`). Rounding, overflow and the sign of zero are not modelled. Values that are
obtained from 8-bit samples by addition, subtraction and multiplication only are always
finite and are kept in `K`; `Flt K` appears from the first division on.

Library code. OpenCV and libm are not part of the repository. Their entry points that the
source calls are collected in the records `OpenCV` and `Libm`; the element-wise matrix operations,
`cv::sum`, `cv::mean`, `cv::countNonZero` and the shape of `cv::GaussianBlur` are modelled
from their documented behaviour. The entry points are total functions here. The real
`cv::meanStdDev`, `cv::cvtColor` and `cv::GaussianBlur` assert `!src.empty()` and throw on a
matrix without elements; what the model computes there is not a value the code returns, and
the contracts below state that precondition where a theorem depends on it.
-/

namespace VideoOptimizer

/-! ## Floating-point values -/

/-- A C++ floating-point value in exact arithmetic: a finite number of `K`, or one of the
IEEE special values. -/
inductive Flt (K : Type) where
  | nan : Flt K
  | ninf : Flt K
  | pinf : Flt K
  | fin (x : K) : Flt K

section FltOps

variable {K : Type} [LinearOrderedField K]

/-- Negation of a floating-point value. -/
def Flt.neg : Flt K → Flt K
  | .fin a => .fin (-a)
  | .pinf => .ninf
  | .ninf => .pinf
  | .nan => .nan

/-- Addition of floating-point values (`inf + -inf` is NaN). -/
def Flt.add : Flt K → Flt K → Flt K
  | .fin a, .fin b => .fin (a + b)
  | .fin _, .pinf => .pinf
  | .fin _, .ninf => .ninf
  | .pinf, .fin _ => .pinf
  | .pinf, .pinf => .pinf
  | .pinf, .ninf => .nan
  | .ninf, .fin _ => .ninf
  | .ninf, .ninf => .ninf
  | .ninf, .pinf => .nan
  | .nan, _ => .nan
  | .fin _, .nan => .nan
  | .pinf, .nan => .nan
  | .ninf, .nan => .nan

/-- Subtraction `a - b` of floating-point values. -/
def Flt.sub (a b : Flt K) : Flt K := a.add b.neg

/-- Multiplication of floating-point values (`0 * inf` is NaN). -/
def Flt.mul : Flt K → Flt K → Flt K
  | .fin a, .fin b => .fin (a * b)
  | .fin a, .pinf => if a = 0 then .nan else if 0 < a then .pinf else .ninf
  | .fin a, .ninf => if a = 0 then .nan else if 0 < a then .ninf else .pinf
  | .pinf, .fin b => if b = 0 then .nan else if 0 < b then .pinf else .ninf
  | .ninf, .fin b => if b = 0 then .nan else if 0 < b then .ninf else .pinf
  | .pinf, .pinf => .pinf
  | .pinf, .ninf => .ninf
  | .ninf, .pinf => .ninf
  | .ninf, .ninf => .pinf
  | .nan, _ => .nan
  | .fin _, .nan => .nan
  | .pinf, .nan => .nan
  | .ninf, .nan => .nan

/-- Division `a / b` of two finite values: `0 / 0` is NaN, `a / 0` is an infinity with the
sign of `a`. -/
def fdiv (a b : K) : Flt K :=
  if b = 0 then
    (if a = 0 then .nan else if 0 < a then .pinf else .ninf)
  else .fin (a / b)

/-- Division of floating-point values. -/
def Flt.div : Flt K → Flt K → Flt K
  | .fin a, .fin b => fdiv a b
  | .fin _, .pinf => .fin 0
  | .fin _, .ninf => .fin 0
  | .pinf, .fin b => if 0 ≤ b then .pinf else .ninf
  | .ninf, .fin b => if 0 ≤ b then .ninf else .pinf
  | .pinf, .pinf => .nan
  | .pinf, .ninf => .nan
  | .ninf, .pinf => .nan
  | .ninf, .ninf => .nan
  | .nan, _ => .nan
  | .fin _, .nan => .nan
  | .pinf, .nan => .nan
  | .ninf, .nan => .nan

/-- Absolute value (`std::abs`). -/
def Flt.abs : Flt K → Flt K
  | .fin a => .fin |a|
  | .pinf => .pinf
  | .ninf => .pinf
  | .nan => .nan

/-- The comparison `a < b`; every comparison with NaN is false. -/
def Flt.lt : Flt K → Flt K → Bool
  | .fin a, .fin b => decide (a < b)
  | .fin _, .pinf => true
  | .ninf, .fin _ => true
  | .ninf, .pinf => true
  | _, _ => false

/-- The comparison `a <= b`; every comparison with NaN is false. -/
def Flt.le : Flt K → Flt K → Bool
  | .fin a, .fin b => decide (a ≤ b)
  | .fin _, .pinf => true
  | .ninf, .fin _ => true
  | .ninf, .pinf => true
  | .ninf, .ninf => true
  | .pinf, .pinf => true
  | _, _ => false

/-- The function `std::max(a, b)`, which is `(a < b) ? b : a`. -/
def Flt.max (a b : Flt K) : Flt K := if a.lt b then b else a

/-- The function `std::min(a, b)`, which is `(b < a) ? b : a`. -/
def Flt.min (a b : Flt K) : Flt K := if b.lt a then b else a

/-- The C++ accumulation loop `acc = start; for (i = 0; i < n; ++i) acc += f(i);`. -/
def Flt.accumulate (start : Flt K) (f : Nat → Flt K) : Nat → Flt K
  | 0 => start
  | n + 1 => (Flt.accumulate start f n).add (f n)

/-- A floating-point value is a finite number in the closed interval `[0, 1]`. -/
def Flt.InUnit (v : Flt K) : Prop := ∃ x : K, v = .fin x ∧ 0 ≤ x ∧ x ≤ 1

end FltOps

/-! ## Matrices -/

/-- A `cv::Mat`: `rows`, `cols` and the element at row `r`, column `c`, channel `ch`.
Only the entries with `r < rows` and `c < cols` (and `ch` below the channel count)
belong to the matrix. A raster frame is a `Mat (Fin 256)` read on channels 0, 1, 2
(type `CV_8UC3`); a `CV_32F` matrix of finite values is a `Mat K`. -/
structure Mat (α : Type) where
  rows : Nat
  cols : Nat
  px : Nat → Nat → Nat → α

section MatOps

variable {K : Type} [LinearOrderedField K]

/-- The OpenCV call `cv::absdiff(a, b, dst)` on 8-bit matrices: the element-wise absolute
difference. -/
def absdiff (a b : Mat (Fin 256)) : Mat (Fin 256) where
  rows := a.rows
  cols := a.cols
  px := fun r c ch =>
    if (b.px r c ch).val ≤ (a.px r c ch).val
    then ⟨(a.px r c ch).val - (b.px r c ch).val, by omega⟩
    else ⟨(b.px r c ch).val - (a.px r c ch).val, by omega⟩

/-- The method `m.convertTo(dst, CV_32F, alpha)` on an 8-bit matrix: every sample converted
to floating point and multiplied by `alpha`. -/
def convertTo (m : Mat (Fin 256)) (alpha : K) : Mat K where
  rows := m.rows
  cols := m.cols
  px := fun r c ch => ((m.px r c ch).val : K) * alpha

/-- The method `a.mul(b)`: element-wise product. -/
def Mat.mul (a b : Mat K) : Mat K where
  rows := a.rows
  cols := a.cols
  px := fun r c ch => a.px r c ch * b.px r c ch

/-- The matrix expression `a + b`. -/
def Mat.add (a b : Mat K) : Mat K where
  rows := a.rows
  cols := a.cols
  px := fun r c ch => a.px r c ch + b.px r c ch

/-- The matrix expression `a - b` (also `a -= b`). -/
def Mat.sub (a b : Mat K) : Mat K where
  rows := a.rows
  cols := a.cols
  px := fun r c ch => a.px r c ch - b.px r c ch

/-- The matrix expression `s * a` for a scalar `s`. -/
def Mat.scale (s : K) (a : Mat K) : Mat K where
  rows := a.rows
  cols := a.cols
  px := fun r c ch => s * a.px r c ch

/-- The matrix expression `a + s` for a scalar `s`, added to every element. -/
def Mat.addScalar (a : Mat K) (s : K) : Mat K where
  rows := a.rows
  cols := a.cols
  px := fun r c ch => a.px r c ch + s

/-- The matrix expression `a / b`: element-wise floating-point division. -/
def Mat.div (a b : Mat K) : Mat (Flt K) where
  rows := a.rows
  cols := a.cols
  px := fun r c ch => fdiv (a.px r c ch) (b.px r c ch)

/-- The OpenCV call `cv::sum(m)[ch]`: the sum of the elements of channel `ch`. `cv::sum`
returns one sum per channel. -/
def cvSum (m : Mat K) (ch : Nat) : K :=
  ∑ r ∈ Finset.range m.rows, ∑ c ∈ Finset.range m.cols, m.px r c ch

/-- The OpenCV call `cv::mean(m)[ch]`: the sum of channel `ch` times `1 / total`, and `0`
for a matrix without elements. `cv::mean` returns one mean per channel. -/
def cvMean (m : Mat (Flt K)) (ch : Nat) : Flt K :=
  (Flt.accumulate (.fin 0)
      (fun r => Flt.accumulate (.fin 0) (fun c => m.px r c ch) m.cols) m.rows).mul
    (if m.rows * m.cols = 0 then .fin 0 else .fin (1 / ((m.rows * m.cols : Nat) : K)))

/-- The OpenCV call `cv::countNonZero(m)` on a single-channel 8-bit matrix. -/
def countNonZero (m : Mat (Fin 256)) : Nat :=
  ∑ r ∈ Finset.range m.rows, ∑ c ∈ Finset.range m.cols, if (m.px r c 0).val = 0 then 0 else 1

end MatOps

/-! ## Library entry points -/

/-- The OpenCV entry points that the source calls and whose code is not part of the
repository. `meanStdDev` returns the two `cv::Scalar` results (mean, stddev) indexed by
channel; `Canny` returns the single-channel 8-bit edge map; `cvtColor` is the conversion to
grey levels; `getGaussianKernel ksize sigma` gives the `ksize` taps of the one-dimensional
Gaussian kernel; `borderInterpolate p len` maps a possibly out-of-range coordinate to a
coordinate of the image (the border rule of the filter). -/
structure OpenCV (K : Type) where
  meanStdDev : Mat K → (Nat → K) × (Nat → K)
  Canny : Mat (Fin 256) → K → K → Mat (Fin 256)
  cvtColor : Mat (Fin 256) → Mat (Fin 256)
  getGaussianKernel : Nat → K → Nat → K
  borderInterpolate : Int → Nat → Nat

/-- The libm functions `sqrt` and `log10` on finite arguments. -/
structure Libm (K : Type) where
  sqrt : K → K
  log10 : K → K

/-- The libm functions of exact real arithmetic. -/
noncomputable def realLibm : Libm ℝ where
  sqrt := Real.sqrt
  log10 := Real.logb 10

section Core

variable {K : Type} [LinearOrderedField K]

/-- The libm call `sqrt(x)` on a floating-point value: NaN below zero. -/
def fsqrt (lib : Libm K) : Flt K → Flt K
  | .fin x => if x < 0 then .nan else .fin (lib.sqrt x)
  | .pinf => .pinf
  | .ninf => .nan
  | .nan => .nan

/-- The libm call `log10(x)` on a floating-point value: NaN below zero, -inf at zero. -/
def flog10 (lib : Libm K) : Flt K → Flt K
  | .fin x => if x < 0 then .nan else if x = 0 then .ninf else .fin (lib.log10 x)
  | .pinf => .pinf
  | .ninf => .nan
  | .nan => .nan

/-- The OpenCV call `cv::GaussianBlur(src, dst, cv::Size(w, h), sigma)`: the separable
filter whose taps are `getGaussianKernel w sigma` along a row and `getGaussianKernel h sigma`
along a column, centred on the pixel, with out-of-range coordinates mapped by the border
rule. The result has the size of `src`. -/
def GaussianBlur (lib : OpenCV K) (src : Mat K) (ksize : Nat × Nat) (sigma : K) : Mat K where
  rows := src.rows
  cols := src.cols
  px := fun r c ch =>
    ∑ i ∈ Finset.range ksize.2, ∑ j ∈ Finset.range ksize.1,
      lib.getGaussianKernel ksize.2 sigma i * lib.getGaussianKernel ksize.1 sigma j *
        src.px (lib.borderInterpolate ((r : Int) + (i : Int) - ((ksize.2 / 2 : Nat) : Int)) src.rows)
          (lib.borderInterpolate ((c : Int) + (j : Int) - ((ksize.1 / 2 : Nat) : Int)) src.cols) ch

/-! ## The video processor (`video_processor.cpp`) -/

/-- The record `VideoProcessor::CompressionParams`. -/
structure CompressionParams (K : Type) where
  bitrate : Int
  width : Int
  height : Int
  preset : String
  target_quality : Flt K

/-- The member variables of `VideoProcessor`. -/
structure VideoProcessor (K : Type) where
  model_weights_ : List (Flt K)
  working_frame_ : Mat (Fin 256)
  feature_cache_ : List (Flt K)

/-- The constructor `VideoProcessor::VideoProcessor()`: 128 weights equal to `1.0f`, an
empty working frame and an empty feature cache. -/
def VideoProcessor.new : VideoProcessor K where
  model_weights_ := List.replicate 128 (.fin 1)
  working_frame_ := ⟨0, 0, fun _ _ _ => 0⟩
  feature_cache_ := []

/-- The loop `while (features.size() < 128) features.push_back(0.0f)`. -/
def padFeatures (features : List (Flt K)) : List (Flt K) :=
  if features.length < 128 then padFeatures (features ++ [.fin 0]) else features
termination_by 128 - features.length
decreasing_by simp_wf; omega

/-- The method `VideoProcessor::extractFeatures`. -/
def extractFeatures (lib : OpenCV K) (frame : Mat (Fin 256)) : List (Flt K) :=
  let features : List (Flt K) := []
  let float_frame : Mat K := convertTo frame (1 / 255)
  let stats := lib.meanStdDev float_frame
  let features := (List.range 3).foldl
    (fun fs i => (fs ++ [Flt.fin (stats.1 i)]) ++ [Flt.fin (stats.2 i)]) features
  let edges := lib.Canny frame 100 200
  let features := features ++
    [fdiv ((countNonZero edges : Nat) : K) ((frame.rows * frame.cols : Nat) : K)]
  let _gray := lib.cvtColor frame
  padFeatures features

/-- The method `VideoProcessor::analyzeFrame`: stores a copy of the frame in
`working_frame_` and returns the features of that copy. -/
def analyzeFrame (lib : OpenCV K) (self : VideoProcessor K) (frame : Mat (Fin 256)) :
    List (Flt K) × VideoProcessor K :=
  let self1 : VideoProcessor K := ⟨self.model_weights_, frame, self.feature_cache_⟩
  (extractFeatures lib self1.working_frame_, self1)

/-- The method `VideoProcessor::predictQuality`. Reading `model_weights_[i]` past the end of
the weights is undefined in C++; the model reads NaN there. -/
def predictQuality (self : VideoProcessor K) (features : List (Flt K)) : Flt K :=
  let quality := Flt.accumulate (.fin 0)
    (fun i => (features.getD i .nan).mul (self.model_weights_.getD i .nan)) features.length
  Flt.min (.fin 1) (Flt.max (.fin 0) quality)

/-- The constant `std::numeric_limits<float>::max()`, which is `(2^24 - 1) * 2^104`. -/
def FLT_MAX : K := 340282346638528859811704183484516925440

/-- The conversion `static_cast<int>(x)` of a finite value: truncation toward zero. -/
def truncToInt [FloorRing K] (x : K) : Int := if 0 ≤ x then ⌊x⌋ else ⌈x⌉

/-- The method `VideoProcessor::optimizeParameters`. The local `params` is declared without
an initialiser: its `preset` is the empty string and its other four fields hold
indeterminate values, which the model takes from `uninit`. The loop state is the pair
`(best_quality_diff, params)`. -/
def optimizeParameters [FloorRing K] (lib : OpenCV K) (self : VideoProcessor K)
    (uninit : CompressionParams K) (frame : Mat (Fin 256)) (target_quality : Flt K) :
    CompressionParams K × VideoProcessor K :=
  let params : CompressionParams K :=
    ⟨uninit.bitrate, uninit.width, uninit.height, "", uninit.target_quality⟩
  let analysed := analyzeFrame lib self frame
  let features := analysed.1
  let self1 := analysed.2
  let best_quality_diff : Flt K := .fin FLT_MAX
  let final := ([1000000, 2000000, 4000000, 8000000] : List Int).foldl
    (fun st bitrate =>
      ([0.5, 0.75, 1.0] : List K).foldl
        (fun st scale =>
          let width := truncToInt ((frame.cols : K) * scale)
          let height := truncToInt ((frame.rows : K) * scale)
          let predicted_quality := predictQuality self1 features
          let quality_diff := (predicted_quality.sub target_quality).abs
          if quality_diff.lt st.1 then
            (quality_diff, CompressionParams.mk bitrate width height "medium" predicted_quality)
          else st)
        st)
    (best_quality_diff, params)
  (final.2, self1)

/-- The method `VideoProcessor::calculatePSNR`. -/
def calculatePSNR (lib : Libm K) (original compressed : Mat (Fin 256)) : Flt K :=
  let diff := absdiff original compressed
  let diff : Mat K := convertTo diff 1
  let diff := diff.mul diff
  let mse := fdiv (cvSum diff 0) ((diff.cols * diff.rows : Nat) : K)
  if mse.le (.fin (1 / 10000000000)) then .fin 100
  else (Flt.fin 20).mul (flog10 lib ((Flt.fin 1).div (fsqrt lib mse)))

/-- The method `VideoProcessor::calculateSSIM`. -/
def calculateSSIM (lib : OpenCV K) (original compressed : Mat (Fin 256)) : Flt K :=
  let C1 : K := 6.5025
  let C2 : K := 58.5225
  let img1 : Mat K := convertTo original 1
  let img2 : Mat K := convertTo compressed 1
  let mu1 := GaussianBlur lib img1 (11, 11) 1.5
  let mu2 := GaussianBlur lib img2 (11, 11) 1.5
  let mu1_2 := mu1.mul mu1
  let mu2_2 := mu2.mul mu2
  let mu1_mu2 := mu1.mul mu2
  let sigma1_2 := GaussianBlur lib (img1.mul img1) (11, 11) 1.5
  let sigma2_2 := GaussianBlur lib (img2.mul img2) (11, 11) 1.5
  let sigma12 := GaussianBlur lib (img1.mul img2) (11, 11) 1.5
  let sigma1_2 := sigma1_2.sub mu1_2
  let sigma2_2 := sigma2_2.sub mu2_2
  let sigma12 := sigma12.sub mu1_mu2
  let ssim_map := (((Mat.scale 2 mu1_mu2).addScalar C1).mul ((Mat.scale 2 sigma12).addScalar C2)).div
    (((mu1_2.add mu2_2).addScalar C1).mul ((sigma1_2.add sigma2_2).addScalar C2))
  cvMean ssim_map 0

/-! ## The marshaling boundary (`python_bindings.cpp`) -/

/-- A `py::array_t<uint8_t>` argument: its shape (`buf.ndim` is the length of the shape) and
its bytes in row-major order. -/
structure NumpyArray where
  shape : List Nat
  data : List (Fin 256)

/-- The result of a bound method: the value returned to Python or the message of the
exception thrown, together with the state of the `VideoProcessor` afterwards. -/
abbrev Outcome (K : Type) (α : Type) := Except String α × VideoProcessor K

/-- The function `numpy_to_mat`. The `CV_8UC3` matrix is filled by a `memcpy` of
`rows * cols * channels` bytes; bytes of the matrix that the copy does not reach are
indeterminate in C++ and read as `0` here. -/
def numpy_to_mat (input : NumpyArray) : Except String (Mat (Fin 256)) :=
  if input.shape.length ≠ 3 then
    .error "Input array must be 3-dimensional"
  else
    let rows := input.shape.getD 0 0
    let cols := input.shape.getD 1 0
    let channels := input.shape.getD 2 0
    .ok ⟨rows, cols, fun r c ch =>
      ((input.data.take (rows * cols * channels)).getD ((r * cols + c) * 3 + ch) 0)⟩

/-- The binding `analyze_frame`. -/
def analyze_frame (lib : OpenCV K) (self : VideoProcessor K) (input : NumpyArray) :
    Outcome K (List (Flt K)) :=
  match numpy_to_mat input with
  | .error e => (.error e, self)
  | .ok frame =>
    let r := analyzeFrame lib self frame
    (.ok r.1, r.2)

/-- The binding `calculate_psnr`. -/
def calculate_psnr (lib : Libm K) (self : VideoProcessor K)
    (original compressed : NumpyArray) : Outcome K (Flt K) :=
  match numpy_to_mat original with
  | .error e => (.error e, self)
  | .ok orig =>
    match numpy_to_mat compressed with
    | .error e => (.error e, self)
    | .ok comp => (.ok (calculatePSNR lib orig comp), self)

/-- The binding `calculate_ssim`. -/
def calculate_ssim (lib : OpenCV K) (self : VideoProcessor K)
    (original compressed : NumpyArray) : Outcome K (Flt K) :=
  match numpy_to_mat original with
  | .error e => (.error e, self)
  | .ok orig =>
    match numpy_to_mat compressed with
    | .error e => (.error e, self)
    | .ok comp => (.ok (calculateSSIM lib orig comp), self)

/-- The binding `optimize_parameters`. -/
def optimize_parameters [FloorRing K] (lib : OpenCV K) (self : VideoProcessor K)
    (uninit : CompressionParams K) (frame : NumpyArray) (target_quality : Flt K) :
    Outcome K (CompressionParams K) :=
  match numpy_to_mat frame with
  | .error e => (.error e, self)
  | .ok input =>
    let r := optimizeParameters lib self uninit input target_quality
    (.ok r.1, r.2)

end Core

/-! ## Specification-side definitions and concrete data -/

section SpecSide

variable {K : Type} [LinearOrderedField K]

/-- The dot product of the specification: the sum of the products of corresponding
entries of the two vectors. -/
def dotProduct (features weights : List (Flt K)) : Flt K :=
  (List.zipWith Flt.mul features weights).foldl Flt.add (.fin 0)

/-- The squared absolute difference of the samples of two frames at one position. -/
def sqAbsDiff (A B : Mat (Fin 256)) (r c ch : Nat) : K :=
  |((A.px r c ch).val : K) - ((B.px r c ch).val : K)| ^ 2

/-- The mean squared error over channel 0: the sum of the squared absolute differences of
the channel-0 samples of all pixels, divided by `rows * cols`. -/
def mseChannel0 (A B : Mat (Fin 256)) : Flt K :=
  fdiv (∑ r ∈ Finset.range A.rows, ∑ c ∈ Finset.range A.cols, sqAbsDiff A B r c 0)
    ((A.rows * A.cols : Nat) : K)

/-- The error value of claim C2: the sum of the squared absolute differences over all
pixels and all three channels, divided by `rows * cols`. -/
def mseAllChannels (A B : Mat (Fin 256)) : Flt K :=
  fdiv (∑ r ∈ Finset.range A.rows, ∑ c ∈ Finset.range A.cols, ∑ ch ∈ Finset.range 3,
      sqAbsDiff A B r c ch)
    ((A.rows * A.cols : Nat) : K)

/-- The two-case rule of the specification: 100.0 when the error is at most `1e-10`, and
`20 * log10(1 / sqrt(mse))` otherwise. -/
def psnrOfMSE (lib : Libm K) (mse : Flt K) : Flt K :=
  if mse.le (.fin (1 / 10000000000)) then .fin 100
  else (Flt.fin 20).mul (flog10 lib ((Flt.fin 1).div (fsqrt lib mse)))

/-- The frame `G` is the frame `F` with the constant `d` added to every sample of every
channel (so every sum stays inside `[0, 255]`). -/
def IsOffsetOf (F G : Mat (Fin 256)) (d : Int) : Prop :=
  G.rows = F.rows ∧ G.cols = F.cols ∧
    ∀ r c ch, r < F.rows → c < F.cols → ch < 3 →
      ((G.px r c ch).val : Int) = ((F.px r c ch).val : Int) + d

/-- The frame of the given size whose every pixel is `(b, g, r)`. -/
def solidFrame (rows cols : Nat) (b g r : Fin 256) : Mat (Fin 256) where
  rows := rows
  cols := cols
  px := fun _ _ ch => if ch = 0 then b else if ch = 1 then g else r

/-- The frame with no rows and no columns, as `numpy_to_mat` builds it from an array of
shape `(0, 0, 3)`. -/
def emptyFrame : Mat (Fin 256) := solidFrame 0 0 0 0 0

/-- The local mean of a frame at one position: the Gaussian blur (11x11, sigma 1.5) of the
frame converted to floating point. -/
def localMean (lib : OpenCV K) (A : Mat (Fin 256)) (r c ch : Nat) : K :=
  (GaussianBlur lib (convertTo A 1) (11, 11) 1.5).px r c ch

/-- The local covariance of two frames at one position: the Gaussian blur of the product
of the frames minus the product of the local means. With `B = A` it is the local variance. -/
def localCov (lib : OpenCV K) (A B : Mat (Fin 256)) (r c ch : Nat) : K :=
  (GaussianBlur lib ((convertTo A 1).mul (convertTo B 1)) (11, 11) 1.5).px r c ch
    - localMean lib A r c ch * localMean lib B r c ch

/-- The numerator `(2*mu1*mu2 + C1) * (2*sigma12 + C2)` of the SSIM map at one position. -/
def ssimNum (lib : OpenCV K) (A B : Mat (Fin 256)) (r c ch : Nat) : K :=
  (2 * localMean lib A r c ch * localMean lib B r c ch + 6.5025)
    * (2 * localCov lib A B r c ch + 58.5225)

/-- The denominator `(mu1^2 + mu2^2 + C1) * (sigma1^2 + sigma2^2 + C2)` of the SSIM map at
one position. -/
def ssimDen (lib : OpenCV K) (A B : Mat (Fin 256)) (r c ch : Nat) : K :=
  (localMean lib A r c ch ^ 2 + localMean lib B r c ch ^ 2 + 6.5025)
    * (localCov lib A A r c ch + localCov lib B B r c ch + 58.5225)

/-- The arithmetic mean of the SSIM map over all pixels of one channel. -/
def ssimMeanOfChannel (lib : OpenCV K) (A B : Mat (Fin 256)) (ch : Nat) : Flt K :=
  (Flt.accumulate (.fin 0)
      (fun r => Flt.accumulate (.fin 0)
        (fun c => fdiv (ssimNum lib A B r c ch) (ssimDen lib A B r c ch)) A.cols) A.rows).mul
    (if A.rows * A.cols = 0 then .fin 0 else .fin (1 / ((A.rows * A.cols : Nat) : K)))

/-- The value of claim C3: the arithmetic mean of the SSIM map over every pixel and all
three channels. -/
def ssimMeanAllChannels (lib : OpenCV K) (A B : Mat (Fin 256)) : Flt K :=
  (Flt.accumulate (.fin 0)
      (fun r => Flt.accumulate (.fin 0)
        (fun c => Flt.accumulate (.fin 0)
          (fun ch => fdiv (ssimNum lib A B r c ch) (ssimDen lib A B r c ch)) 3) A.cols)
      A.rows).mul
    (if A.rows * A.cols = 0 then .fin 0 else .fin (1 / ((3 * (A.rows * A.cols) : Nat) : K)))

/-- The contract of `getGaussianKernel(11, 1.5)`: the eleven taps are non-negative and sum
to one (OpenCV normalises the kernel). -/
def KernelNormalised (lib : OpenCV K) : Prop :=
  (∀ i, 0 ≤ lib.getGaussianKernel 11 1.5 i) ∧
    ∑ i ∈ Finset.range 11, lib.getGaussianKernel 11 1.5 i = 1

/-- The contract of a call `cv::meanStdDev(m, mean, stddev)` that returns, for the channels
0, 1, 2: the matrix has at least one element (the call asserts `!src.empty()` and throws
otherwise), the mean is the sum of the channel divided by the number of pixels, and the
standard deviation is the non-negative number whose square is the mean squared deviation
from that mean. -/
def MeanStdDevSpec (m : Mat K) (res : (Nat → K) × (Nat → K)) : Prop :=
  0 < m.rows * m.cols ∧
  ∀ ch, ch < 3 →
    res.1 ch = cvSum m ch / ((m.rows * m.cols : Nat) : K) ∧
    0 ≤ res.2 ch ∧
    res.2 ch ^ 2 = (∑ r ∈ Finset.range m.rows, ∑ c ∈ Finset.range m.cols,
        (m.px r c ch - res.1 ch) ^ 2) / ((m.rows * m.cols : Nat) : K)

/-- The contract of `cv::Canny` on a frame: the edge map has the size of the frame. -/
def CannySameSize (lib : OpenCV K) (frame : Mat (Fin 256)) : Prop :=
  (lib.Canny frame 100 200).rows = frame.rows ∧ (lib.Canny frame 100 200).cols = frame.cols

/-- The loop of `cv::borderInterpolate` for `BORDER_REFLECT_101`, run at most `fuel`
times. -/
def reflectLoop (len : Nat) : Nat → Int → Int
  | 0, p => p
  | fuel + 1, p =>
    let p1 := if p < 0 then -p else (len : Int) - 1 - (p - len) - 1
    if 0 ≤ p1 ∧ p1 < len then p1 else reflectLoop len fuel p1

/-- The border rule `BORDER_REFLECT_101` (the default of `cv::GaussianBlur`). -/
def reflect101 (p : Int) (len : Nat) : Nat :=
  if 0 ≤ p ∧ p < len then p.toNat
  else if len = 1 then 0
  else (reflectLoop len 16 p).toNat

/-- A concrete instance of the OpenCV entry points over the rationals, for evaluating the
model on concrete frames. It is exact on solid frames with at least one pixel: there the
mean is the sample value, the deviation is zero, the edge detector marks no pixel, and every
normalised blur is the identity. On a frame without pixels the real `cv::meanStdDev` and
`cv::cvtColor` throw, so the values of this instance there stand for no result of the
library. The taps are the normalised binomial weights `choose 10 i / 1024`. -/
def sampleOpenCV : OpenCV ℚ where
  meanStdDev := fun m =>
    (fun ch => if m.rows * m.cols = 0 then 0 else cvSum m ch / ((m.rows * m.cols : Nat) : ℚ),
     fun _ => 0)
  Canny := fun f _ _ => ⟨f.rows, f.cols, fun _ _ _ => 0⟩
  cvtColor := fun f => ⟨f.rows, f.cols, fun r c _ => f.px r c 1⟩
  getGaussianKernel := fun ksize _ i =>
    if i < ksize then (Nat.choose (ksize - 1) i : ℚ) / 2 ^ (ksize - 1) else 0
  borderInterpolate := reflect101

end SpecSide

/-! ## Floating-point lemmas -/

section FltLemmas

variable {K : Type} [LinearOrderedField K]

@[simp] theorem Flt.add_fin_fin (a b : K) : (Flt.fin a).add (.fin b) = .fin (a + b) := rfl

@[simp] theorem Flt.mul_fin_fin (a b : K) : (Flt.fin a).mul (.fin b) = .fin (a * b) := rfl

@[simp] theorem Flt.neg_fin (a : K) : (Flt.fin a).neg = .fin (-a) := rfl

@[simp] theorem Flt.sub_fin_fin (a b : K) : (Flt.fin a).sub (.fin b) = .fin (a - b) := by
  simp [Flt.sub, sub_eq_add_neg]

@[simp] theorem Flt.abs_fin (a : K) : (Flt.fin a).abs = .fin |a| := rfl

@[simp] theorem Flt.lt_fin_fin (a b : K) : (Flt.fin a).lt (.fin b) = decide (a < b) := rfl

@[simp] theorem Flt.le_fin_fin (a b : K) : (Flt.fin a).le (.fin b) = decide (a ≤ b) := rfl

theorem Flt.lt_irrefl (a : Flt K) : a.lt a = false := by
  cases a <;> simp [Flt.lt]

theorem fdiv_of_ne_zero (a b : K) (h : b ≠ 0) : fdiv a b = .fin (a / b) := by
  simp [fdiv, h]

/-- The clamp `std::min(1, std::max(0, x))` always yields a finite value in `[0, 1]`,
also for NaN and the infinities. -/
theorem clamp_inUnit (x : Flt K) : (Flt.min (.fin 1) (Flt.max (.fin 0) x)).InUnit := by
  cases x with
  | nan => exact ⟨0, by simp [Flt.min, Flt.max, Flt.lt], le_refl _, zero_le_one⟩
  | ninf => exact ⟨0, by simp [Flt.min, Flt.max, Flt.lt], le_refl _, zero_le_one⟩
  | pinf => exact ⟨1, by simp [Flt.min, Flt.max, Flt.lt], zero_le_one, le_refl _⟩
  | fin d =>
    by_cases h0 : 0 < d
    · by_cases h1 : d < 1
      · exact ⟨d, by simp [Flt.min, Flt.max, h0, h1], h0.le, h1.le⟩
      · exact ⟨1, by simp [Flt.min, Flt.max, h0, h1], zero_le_one, le_refl _⟩
    · exact ⟨0, by simp [Flt.min, Flt.max, h0], le_refl _, zero_le_one⟩

/-- On a finite argument the clamp is the mathematical `min 1 (max 0 d)`. -/
theorem clamp_fin_eq (d : K) :
    Flt.min (.fin 1) (Flt.max (.fin 0) (.fin d)) = .fin (min 1 (max 0 d)) := by
  by_cases h0 : 0 < d
  · by_cases h1 : d < 1
    · simp [Flt.min, Flt.max, h0, h1, max_eq_right h0.le, min_eq_right h1.le]
    · simp [Flt.min, Flt.max, h0, h1, max_eq_right h0.le, min_eq_left (not_lt.mp h1)]
  · simp [Flt.min, Flt.max, h0, max_eq_left (not_lt.mp h0)]

theorem Flt.accumulate_fin (g : Nat → K) (s : K) (n : Nat) :
    Flt.accumulate (.fin s) (fun i => .fin (g i)) n = .fin (s + ∑ i ∈ Finset.range n, g i) := by
  induction n with
  | zero => simp [Flt.accumulate]
  | succ n ih => simp [Flt.accumulate, ih, Finset.sum_range_succ, add_assoc]

theorem Flt.accumulate_succ_left (start : Flt K) (f : Nat → Flt K) (n : Nat) :
    Flt.accumulate start f (n + 1) = Flt.accumulate (start.add (f 0)) (fun i => f (i + 1)) n := by
  induction n with
  | zero => rfl
  | succ n ih =>
    show (Flt.accumulate start f (n + 1)).add (f (n + 1)) = _
    rw [ih]
    rfl

end FltLemmas

/-! ## Feature extraction -/

section Features

variable {K : Type} [LinearOrderedField K]

/-- The padding loop appends zeros until the length is 128 and stops. -/
theorem padFeatures_eq (l : List (Flt K)) :
    padFeatures l = l ++ List.replicate (128 - l.length) (.fin 0) := by
  generalize hn : 128 - l.length = n
  induction n generalizing l with
  | zero =>
    rw [padFeatures, if_neg (by omega)]
    simp
  | succ n ih =>
    rw [padFeatures, if_pos (by omega), ih _ (by simp; omega)]
    simp [List.replicate_succ]

/-- The vector built by `extractFeatures`: the six statistics, the edge ratio, and 121
zeros. -/
theorem extractFeatures_eq (lib : OpenCV K) (frame : Mat (Fin 256)) :
    extractFeatures lib frame =
      [Flt.fin ((lib.meanStdDev (convertTo frame (1 / 255))).1 0),
       Flt.fin ((lib.meanStdDev (convertTo frame (1 / 255))).2 0),
       Flt.fin ((lib.meanStdDev (convertTo frame (1 / 255))).1 1),
       Flt.fin ((lib.meanStdDev (convertTo frame (1 / 255))).2 1),
       Flt.fin ((lib.meanStdDev (convertTo frame (1 / 255))).1 2),
       Flt.fin ((lib.meanStdDev (convertTo frame (1 / 255))).2 2),
       fdiv ((countNonZero (lib.Canny frame 100 200) : Nat) : K)
         ((frame.rows * frame.cols : Nat) : K)]
      ++ List.replicate 121 (.fin 0) := by
  have hr : List.range 3 = [0, 1, 2] := by decide
  simp only [extractFeatures, hr, List.foldl_cons, List.foldl_nil, padFeatures_eq, List.nil_append,
    List.cons_append, List.length_cons, List.length_nil, List.append_assoc]

/-- C7. For any frame, of any size, `extractFeatures` returns a vector of length exactly
128 whose positions 7 through 127 are all 0.0, whatever the statistics and the edge detector
produce for positions 0 through 6; `analyzeFrame` returns that same vector. -/
theorem extractFeatures_length_128_and_zero_tail (lib : OpenCV K) (self : VideoProcessor K)
    (frame : Mat (Fin 256)) :
    (extractFeatures lib frame).length = 128 ∧
    (extractFeatures lib frame).drop 7 = List.replicate 121 (.fin 0) ∧
    (analyzeFrame lib self frame).1 = extractFeatures lib frame := by
  refine ⟨?_, ?_, rfl⟩
  · rw [extractFeatures_eq]; simp
  · rw [extractFeatures_eq]; simp

end Features

/-! ## Quality prediction -/

section Predict

variable {K : Type} [LinearOrderedField K]

theorem accumulate_eq_foldl_zipWith (xs ys : List (Flt K)) (acc : Flt K)
    (h : xs.length = ys.length) :
    Flt.accumulate acc (fun i => (xs.getD i .nan).mul (ys.getD i .nan)) xs.length =
      (List.zipWith Flt.mul xs ys).foldl Flt.add acc := by
  induction xs generalizing ys acc with
  | nil => cases ys <;> simp_all [Flt.accumulate]
  | cons x xs ih =>
    cases ys with
    | nil => simp at h
    | cons y ys =>
      have hl : xs.length = ys.length := by simpa using h
      rw [List.length_cons, Flt.accumulate_succ_left]
      simp only [List.getD_cons_zero, List.getD_cons_succ, List.zipWith_cons_cons,
        List.foldl_cons]
      exact ih ys _ hl

/-- On finite vectors the dot product of the specification is the finite sum of products. -/
theorem dotProduct_fin_aux (fs ws : List K) (a : K) :
    (List.zipWith Flt.mul (fs.map Flt.fin) (ws.map Flt.fin)).foldl Flt.add (.fin a) =
      .fin (a + (List.zipWith (fun x y => x * y) fs ws).sum) := by
  induction fs generalizing ws a with
  | nil => simp
  | cons f fs ih =>
    cases ws with
    | nil => simp
    | cons w ws =>
      simp only [List.map_cons, List.zipWith_cons_cons, List.foldl_cons, Flt.add_fin_fin,
        Flt.mul_fin_fin, List.sum_cons]
      rw [ih, add_assoc]

theorem dotProduct_fin (fs ws : List K) :
    dotProduct (fs.map Flt.fin) (ws.map Flt.fin) =
      .fin ((List.zipWith (fun x y => x * y) fs ws).sum) := by
  rw [dotProduct, dotProduct_fin_aux, zero_add]

/-- C9. For any feature vector and any weight vector of the same length, `predictQuality`
returns the dot product of the two vectors clamped by `std::min(1, std::max(0, dot))`; the
result always is a finite number in `[0, 1]`, and when the dot product is a finite `d` it is
`min 1 (max 0 d)`. -/
theorem predictQuality_is_clamped_dot (self : VideoProcessor K) (features : List (Flt K))
    (hlen : features.length = self.model_weights_.length) :
    predictQuality self features
        = Flt.min (.fin 1) (Flt.max (.fin 0) (dotProduct features self.model_weights_)) ∧
    (predictQuality self features).InUnit ∧
    (∀ d : K, dotProduct features self.model_weights_ = .fin d →
        predictQuality self features = .fin (min 1 (max 0 d))) := by
  have h1 : predictQuality self features
      = Flt.min (.fin 1) (Flt.max (.fin 0) (dotProduct features self.model_weights_)) := by
    simp only [predictQuality, dotProduct]
    rw [accumulate_eq_foldl_zipWith _ _ _ hlen]
  refine ⟨h1, ?_, ?_⟩
  · rw [h1]; exact clamp_inUnit _
  · intro d hd
    rw [h1, hd, clamp_fin_eq]

/-- The predicted quality is a finite number in `[0, 1]` for every input. -/
theorem predictQuality_inUnit (self : VideoProcessor K) (features : List (Flt K)) :
    (predictQuality self features).InUnit := by
  simp only [predictQuality]
  exact clamp_inUnit _

end Predict

/-! ## Parameter optimisation -/

section Optimize

variable {K : Type} [LinearOrderedField K] [FloorRing K]

/-- The grid search accepts its first candidate when the quality difference is below
`FLT_MAX`, and otherwise accepts no candidate at all and returns `params` as declared. -/
theorem optimizeParameters_eq (lib : OpenCV K) (self : VideoProcessor K)
    (uninit : CompressionParams K) (frame : Mat (Fin 256)) (q : Flt K) :
    optimizeParameters lib self uninit frame q =
      (if (((predictQuality self (extractFeatures lib frame)).sub q).abs).lt (.fin FLT_MAX) then
          CompressionParams.mk 1000000 (truncToInt ((frame.cols : K) * 0.5))
            (truncToInt ((frame.rows : K) * 0.5)) "medium"
            (predictQuality self (extractFeatures lib frame))
        else CompressionParams.mk uninit.bitrate uninit.width uninit.height ""
          uninit.target_quality,
       VideoProcessor.mk self.model_weights_ frame self.feature_cache_) := by
  have hp : ∀ fs, predictQuality (analyzeFrame lib self frame).2 fs = predictQuality self fs :=
    fun _ => rfl
  simp only [optimizeParameters, hp, List.foldl_cons, List.foldl_nil]
  by_cases h : (((predictQuality self (extractFeatures lib frame)).sub q).abs).lt (.fin FLT_MAX)
      = true
  · simp [h, Flt.lt_irrefl, analyzeFrame]
  · simp [h, analyzeFrame]

theorem truncToInt_half (n : Nat) : truncToInt ((n : K) * 0.5) = ((n / 2 : Nat) : Int) := by
  have h0 : (0 : K) ≤ (n : K) * 0.5 := by positivity
  rw [truncToInt, if_pos h0, Int.floor_eq_iff]
  have hn : (n : K) = 2 * ((n / 2 : Nat) : K) + ((n % 2 : Nat) : K) := by
    exact_mod_cast (Nat.div_add_mod n 2).symm
  have hm : ((n % 2 : Nat) : K) < 2 := by exact_mod_cast Nat.mod_lt n (by norm_num)
  have hm0 : (0 : K) ≤ ((n % 2 : Nat) : K) := Nat.cast_nonneg _
  simp only [Int.cast_natCast]
  constructor
  · rw [hn]; norm_num; linarith
  · rw [hn]; norm_num; linarith

/-- Whenever the target is a finite `t` with `1 - FLT_MAX < t < FLT_MAX`, the optimiser
returns the first grid candidate: bitrate 1000000, the frame size scaled by 0.5 and rounded
down, preset "medium", and the predicted quality of the frame. -/
theorem optimizeParameters_first_candidate (lib : OpenCV K) (self : VideoProcessor K)
    (uninit : CompressionParams K) (frame : Mat (Fin 256)) (t : K)
    (hlo : 1 - FLT_MAX < t) (hhi : t < FLT_MAX) :
    (optimizeParameters lib self uninit frame (.fin t)).1 =
      CompressionParams.mk 1000000 (⌊(frame.cols : K) * 0.5⌋) (⌊(frame.rows : K) * 0.5⌋) "medium"
        (predictQuality self (extractFeatures lib frame)) := by
  obtain ⟨x, hx, hx0, hx1⟩ := predictQuality_inUnit self (extractFeatures lib frame)
  have hlt : |x - t| < (FLT_MAX : K) := by
    rw [abs_lt]; constructor <;> linarith
  have h0c : (0 : K) ≤ (frame.cols : K) * 0.5 := by positivity
  have h0r : (0 : K) ≤ (frame.rows : K) * 0.5 := by positivity
  rw [optimizeParameters_eq]
  simp [hx, hlt, truncToInt, h0c, h0r]

/-- The example of the specification: the solid 100x100 frame (128,128,128) with target
quality 0.9 gives width 50, height 50, bitrate 1000000 and preset "medium". -/
theorem optimizeParameters_solid_100 (lib : OpenCV K) (self : VideoProcessor K)
    (uninit : CompressionParams K) :
    (optimizeParameters lib self uninit (solidFrame 100 100 128 128 128) (.fin 0.9)).1 =
      CompressionParams.mk 1000000 50 50 "medium"
        (predictQuality self (extractFeatures lib (solidFrame 100 100 128 128 128))) := by
  have hF : (1 : K) - FLT_MAX < 0.9 := by simp only [FLT_MAX]; norm_num
  have hF2 : (0.9 : K) < FLT_MAX := by simp only [FLT_MAX]; norm_num
  rw [optimizeParameters_first_candidate lib self uninit _ 0.9 hF hF2]
  have h50 : ⌊((solidFrame 100 100 128 128 128).cols : K) * 0.5⌋ = 50 := by
    rw [Int.floor_eq_iff]; simp only [solidFrame]; norm_num
  have h50r : ⌊((solidFrame 100 100 128 128 128).rows : K) * 0.5⌋ = 50 := by
    rw [Int.floor_eq_iff]; simp only [solidFrame]; norm_num
  rw [h50, h50r]

/-- C1. At the target quality `-FLT_MAX` (a finite `float`) the quality difference of every
candidate is at least `FLT_MAX`, the strict comparison with the initial
`best_quality_diff = FLT_MAX` never succeeds, no candidate is accepted, and
`optimizeParameters` returns `params` as it was declared: the empty preset and four
indeterminate fields, not the record with bitrate 1000000 and preset "medium". -/
theorem optimizeParameters_at_neg_FLT_MAX (lib : OpenCV K) (self : VideoProcessor K)
    (uninit : CompressionParams K) (frame : Mat (Fin 256)) :
    (optimizeParameters lib self uninit frame (.fin (-FLT_MAX))).1 =
      CompressionParams.mk uninit.bitrate uninit.width uninit.height ""
        uninit.target_quality ∧
    (optimizeParameters lib self uninit frame (.fin (-FLT_MAX))).1.preset ≠ "medium" := by
  obtain ⟨x, hx, hx0, hx1⟩ := predictQuality_inUnit self (extractFeatures lib frame)
  have hF : (0 : K) < FLT_MAX := by simp [FLT_MAX]
  have hnlt : (FLT_MAX : K) ≤ |x + FLT_MAX| := by
    rw [abs_of_nonneg (by linarith)]; linarith
  have h : (optimizeParameters lib self uninit frame (.fin (-FLT_MAX))).1 =
      CompressionParams.mk uninit.bitrate uninit.width uninit.height ""
        uninit.target_quality := by
    rw [optimizeParameters_eq]
    simp [hx, hnlt]
  refine ⟨h, ?_⟩
  rw [h]
  show ("" : String) ≠ "medium"
  decide

end Optimize

/-! ## PSNR -/

section PSNR

variable {K : Type} [LinearOrderedField K]

theorem absdiff_sq (A B : Mat (Fin 256)) (r c ch : Nat) :
    ((convertTo (absdiff A B) (1 : K)).mul (convertTo (absdiff A B) 1)).px r c ch
      = sqAbsDiff A B r c ch := by
  simp only [Mat.mul, convertTo, absdiff, sqAbsDiff, mul_one, sq_abs]
  split
  · rename_i h
    rw [Nat.cast_sub h]; ring
  · rename_i h
    rw [Nat.cast_sub (Nat.le_of_lt (Nat.lt_of_not_le h))]; ring

/-- The error value that `calculatePSNR` computes is the channel-0 mean squared error. -/
theorem calculatePSNR_eq (lib : Libm K) (A B : Mat (Fin 256)) :
    calculatePSNR lib A B = psnrOfMSE lib (mseChannel0 A B) := by
  have hs : cvSum ((convertTo (absdiff A B) (1 : K)).mul (convertTo (absdiff A B) 1)) 0
      = ∑ r ∈ Finset.range A.rows, ∑ c ∈ Finset.range A.cols, sqAbsDiff A B r c 0 := by
    simp only [cvSum, absdiff_sq]
    rfl
  have hd : ((convertTo (absdiff A B) (1 : K)).mul (convertTo (absdiff A B) 1)).cols *
      ((convertTo (absdiff A B) (1 : K)).mul (convertTo (absdiff A B) 1)).rows
      = A.rows * A.cols := Nat.mul_comm _ _
  simp only [calculatePSNR, psnrOfMSE, mseChannel0, hs, hd]

end PSNR

section PSNRReal

theorem psnrOfMSE_real_small (m : ℝ) (hm : m ≤ 1 / 10000000000) :
    psnrOfMSE realLibm (.fin m) = .fin 100 := by
  simp only [psnrOfMSE, Flt.le_fin_fin, hm, decide_True, if_true]

theorem psnrOfMSE_real_large (m : ℝ) (hm : 1 / 10000000000 < m) :
    psnrOfMSE realLibm (.fin m) = .fin (20 * Real.logb 10 (1 / Real.sqrt m)) := by
  have hpos : (0 : ℝ) < m := lt_trans (by norm_num) hm
  have hs : 0 < Real.sqrt m := Real.sqrt_pos.mpr hpos
  have hinv : (0 : ℝ) < 1 / Real.sqrt m := by positivity
  have h1 : ¬ m ≤ 1 / 10000000000 := not_le.mpr hm
  simp only [psnrOfMSE, Flt.le_fin_fin, h1, decide_False, Bool.false_eq_true, if_false,
    fsqrt, not_lt.mpr hpos.le, realLibm, Flt.div, fdiv, hs.ne', flog10, not_lt.mpr hinv.le,
    hinv.ne', Flt.mul_fin_fin]

theorem mseChannel0_of_nonempty {K : Type} [LinearOrderedField K] (A B : Mat (Fin 256))
    (h : 0 < A.rows * A.cols) :
    mseChannel0 A B = (Flt.fin ((∑ r ∈ Finset.range A.rows, ∑ c ∈ Finset.range A.cols,
      sqAbsDiff A B r c 0) / ((A.rows * A.cols : Nat) : K)) : Flt K) := by
  rw [mseChannel0, fdiv_of_ne_zero]
  exact_mod_cast h.ne'

theorem mseChannel0_of_empty {K : Type} [LinearOrderedField K] (A B : Mat (Fin 256))
    (h : A.rows * A.cols = 0) : (mseChannel0 A B : Flt K) = .nan := by
  have hz : (∑ r ∈ Finset.range A.rows, ∑ c ∈ Finset.range A.cols, sqAbsDiff A B r c 0 : K)
      = 0 := by
    rcases Nat.mul_eq_zero.mp h with h0 | h0
    · simp [h0]
    · simp [h0]
  rw [mseChannel0, hz, h]
  simp [fdiv]

/-- C2 (amended). With the libm functions of exact real arithmetic, `calculatePSNR(A, B)`
is computed from MSE = (the sum of the squared absolute differences of the channel-0 samples
over all pixels) / (rows * cols): it is the two-case rule applied to that value, that is,
for frames with at least one pixel, 100.0 when the MSE is at most 1e-10 and
`20 * log10(1 / sqrt(MSE))` otherwise. Channels 1 and 2 do not enter the result. -/
theorem calculatePSNR_from_channel0_mse (A B : Mat (Fin 256)) :
    calculatePSNR realLibm A B = psnrOfMSE realLibm (mseChannel0 A B) ∧
    (0 < A.rows * A.cols →
      calculatePSNR realLibm A B =
        if (∑ r ∈ Finset.range A.rows, ∑ c ∈ Finset.range A.cols, sqAbsDiff A B r c 0)
            / ((A.rows * A.cols : Nat) : ℝ) ≤ 1 / 10000000000
        then .fin 100
        else .fin (20 * Real.logb 10 (1 / Real.sqrt
          ((∑ r ∈ Finset.range A.rows, ∑ c ∈ Finset.range A.cols, sqAbsDiff A B r c 0)
            / ((A.rows * A.cols : Nat) : ℝ))))) := by
  refine ⟨calculatePSNR_eq _ A B, fun h => ?_⟩
  rw [calculatePSNR_eq, mseChannel0_of_nonempty A B h]
  split
  · rename_i hle
    exact psnrOfMSE_real_small _ hle
  · rename_i hle
    exact psnrOfMSE_real_large _ (not_le.mp hle)

/-- C2 (counterexample). For the 1x1 frames A = (0,0,0) and B = (0,1,0) the frames differ
in channel 1 only: `calculatePSNR` returns the sentinel 100.0, while the rule of the claim,
applied to the error summed over all three channels (which is 1), gives 0. -/
theorem calculatePSNR_ignores_channels_1_2 :
    calculatePSNR realLibm (solidFrame 1 1 0 0 0) (solidFrame 1 1 0 1 0) = .fin 100 ∧
    psnrOfMSE realLibm (mseAllChannels (solidFrame 1 1 0 0 0) (solidFrame 1 1 0 1 0)) = .fin 0 ∧
    calculatePSNR realLibm (solidFrame 1 1 0 0 0) (solidFrame 1 1 0 1 0) ≠
      psnrOfMSE realLibm (mseAllChannels (solidFrame 1 1 0 0 0) (solidFrame 1 1 0 1 0)) := by
  have h1 : calculatePSNR realLibm (solidFrame 1 1 0 0 0) (solidFrame 1 1 0 1 0) = .fin 100 := by
    rw [calculatePSNR_eq, mseChannel0_of_nonempty _ _ (by decide)]
    apply psnrOfMSE_real_small
    simp [solidFrame, sqAbsDiff]
  have h2 : psnrOfMSE realLibm
      (mseAllChannels (solidFrame 1 1 0 0 0) (solidFrame 1 1 0 1 0)) = .fin 0 := by
    have hm : (mseAllChannels (solidFrame 1 1 0 0 0) (solidFrame 1 1 0 1 0) : Flt ℝ)
        = .fin 1 := by
      simp [mseAllChannels, solidFrame, sqAbsDiff, fdiv, Finset.sum_range_succ]
    rw [hm, psnrOfMSE_real_large _ (by norm_num)]
    simp
  refine ⟨h1, h2, ?_⟩
  rw [h1, h2]
  intro h
  injection h with h
  norm_num at h

theorem psnrOfMSE_nan {K : Type} [LinearOrderedField K] (lib : Libm K) :
    psnrOfMSE lib (.nan : Flt K) = .nan := by
  simp [psnrOfMSE, Flt.le, fsqrt, Flt.div, flog10, Flt.mul]

theorem sqAbsDiff_self {K : Type} [LinearOrderedField K] (F : Mat (Fin 256)) (r c ch : Nat) :
    (sqAbsDiff F F r c ch : K) = 0 := by
  simp [sqAbsDiff]

/-- C4 (amended). For any frame F with at least one pixel, `calculatePSNR(F, F)` is the
sentinel 100.0, whatever libm computes. -/
theorem calculatePSNR_self_nonempty {K : Type} [LinearOrderedField K] (lib : Libm K)
    (F : Mat (Fin 256)) (hne : 0 < F.rows * F.cols) :
    calculatePSNR lib F F = .fin 100 := by
  rw [calculatePSNR_eq, mseChannel0_of_nonempty F F hne]
  simp [sqAbsDiff_self, psnrOfMSE]

/-- C4 (witness). The solid 100x100 frame (128,128,128) compared with itself. -/
theorem calculatePSNR_self_solid_100 :
    0 < (solidFrame 100 100 128 128 128).rows * (solidFrame 100 100 128 128 128).cols ∧
    calculatePSNR realLibm (solidFrame 100 100 128 128 128) (solidFrame 100 100 128 128 128)
      = .fin 100 :=
  ⟨by decide, calculatePSNR_self_nonempty realLibm _ (by decide)⟩

/-- C4 (counterexample). For the frame without pixels the division `0 / (cols * rows)` is
`0 / 0`: the error value is NaN, the comparison `mse <= 1e-10` is false, and
`calculatePSNR(F, F)` is NaN, not 100.0. -/
theorem calculatePSNR_self_empty_is_nan :
    calculatePSNR realLibm emptyFrame emptyFrame = .nan ∧
    calculatePSNR realLibm emptyFrame emptyFrame ≠ .fin 100 := by
  have h : calculatePSNR realLibm emptyFrame emptyFrame = .nan := by
    rw [calculatePSNR_eq, mseChannel0_of_empty _ _ (by decide), psnrOfMSE_nan]
  refine ⟨h, ?_⟩
  rw [h]
  intro h'
  cases h'

theorem calculatePSNR_offset (F G : Mat (Fin 256)) (d : Int) (hne : 0 < F.rows * F.cols)
    (h : IsOffsetOf F G d) (hd : 0 < |d|) :
    calculatePSNR realLibm F G = .fin (20 * Real.logb 10 (1 / |(d : ℝ)|)) := by
  obtain ⟨_, _, hpx⟩ := h
  have hsq : ∀ r ∈ Finset.range F.rows, ∀ c ∈ Finset.range F.cols,
      (sqAbsDiff F G r c 0 : ℝ) = (d : ℝ) ^ 2 := by
    intro r hr c hc
    have := hpx r c 0 (Finset.mem_range.mp hr) (Finset.mem_range.mp hc) (by norm_num)
    have hR : (((G.px r c 0).val : Int) : ℝ) = (((F.px r c 0).val : Int) : ℝ) + (d : ℝ) := by
      exact_mod_cast this
    simp only [Int.cast_natCast] at hR
    rw [sqAbsDiff, hR, sq_abs]
    ring
  have hsum : (∑ r ∈ Finset.range F.rows, ∑ c ∈ Finset.range F.cols, sqAbsDiff F G r c 0 : ℝ)
      = ((F.rows * F.cols : Nat) : ℝ) * (d : ℝ) ^ 2 := by
    rw [Finset.sum_congr rfl (fun r hr => Finset.sum_congr rfl (fun c hc => hsq r hr c hc))]
    simp [Finset.sum_const, mul_assoc]
  have hN : (((F.rows * F.cols : Nat)) : ℝ) ≠ 0 := by exact_mod_cast hne.ne'
  have hd1 : (1 : ℝ) ≤ |(d : ℝ)| := by
    have : (1 : Int) ≤ |d| := hd
    exact_mod_cast this
  have hmse : (1 : ℝ) ≤ (d : ℝ) ^ 2 := by
    rw [← sq_abs]; nlinarith
  rw [calculatePSNR_eq, mseChannel0_of_nonempty F G hne, hsum, mul_div_cancel_left₀ _ hN,
    psnrOfMSE_real_large _ (lt_of_lt_of_le (by norm_num) hmse), Real.sqrt_sq_eq_abs]

/-- C6 (amended). For every frame F with at least one pixel and every pair of constant
offsets d1, d2 with 0 < |d1| < |d2| such that F + d1 and F + d2 stay inside [0,255],
`calculatePSNR(F, F + d2) < calculatePSNR(F, F + d1)` in exact real arithmetic. -/
theorem calculatePSNR_offset_monotone (F G1 G2 : Mat (Fin 256)) (d1 d2 : Int)
    (hne : 0 < F.rows * F.cols) (h1 : IsOffsetOf F G1 d1) (h2 : IsOffsetOf F G2 d2)
    (hd1 : 0 < |d1|) (hd : |d1| < |d2|) :
    (calculatePSNR realLibm F G2).lt (calculatePSNR realLibm F G1) = true := by
  rw [calculatePSNR_offset F G1 d1 hne h1 hd1,
    calculatePSNR_offset F G2 d2 hne h2 (lt_trans hd1 hd)]
  have p1 : (0 : ℝ) < |(d1 : ℝ)| := by exact_mod_cast hd1
  have p12 : |(d1 : ℝ)| < |(d2 : ℝ)| := by exact_mod_cast hd
  have hlt : 1 / |(d2 : ℝ)| < 1 / |(d1 : ℝ)| := one_div_lt_one_div_of_lt p1 p12
  have hlog := Real.logb_lt_logb (by norm_num : (1 : ℝ) < 10)
    (one_div_pos.mpr (lt_trans p1 p12)) hlt
  simp only [Flt.lt_fin_fin, decide_eq_true_eq]
  linarith

/-- C6 (witness). The solid 2x2 frame of value 100 with the offsets 1 and 3. -/
theorem calculatePSNR_offset_monotone_solid :
    (calculatePSNR realLibm (solidFrame 2 2 100 100 100) (solidFrame 2 2 103 103 103)).lt
      (calculatePSNR realLibm (solidFrame 2 2 100 100 100) (solidFrame 2 2 101 101 101))
      = true :=
  calculatePSNR_offset_monotone (solidFrame 2 2 100 100 100) (solidFrame 2 2 101 101 101)
    (solidFrame 2 2 103 103 103) 1 3 (by decide)
    ⟨rfl, rfl, by intro r c ch _ _ _; simp only [solidFrame]; split_ifs <;> rfl⟩
    ⟨rfl, rfl, by intro r c ch _ _ _; simp only [solidFrame]; split_ifs <;> rfl⟩
    (by decide) (by decide)

/-- C6 (counterexample). The frame without pixels satisfies the premises with
F + 1 = F + 2 = F (there is no sample to offset), and both results are NaN, so the strict
comparison is false. -/
theorem calculatePSNR_offset_not_monotone_on_empty :
    IsOffsetOf emptyFrame emptyFrame 1 ∧ IsOffsetOf emptyFrame emptyFrame 2 ∧
    (0 : Int) < |1| ∧ |(1 : Int)| < |2| ∧
    calculatePSNR realLibm emptyFrame emptyFrame = .nan ∧
    ¬ ((calculatePSNR realLibm emptyFrame emptyFrame).lt
        (calculatePSNR realLibm emptyFrame emptyFrame) = true) := by
  have h : calculatePSNR realLibm emptyFrame emptyFrame = .nan := by
    rw [calculatePSNR_eq, mseChannel0_of_empty _ _ (by decide), psnrOfMSE_nan]
  refine ⟨⟨rfl, rfl, ?_⟩, ⟨rfl, rfl, ?_⟩, by decide, by decide, h, ?_⟩
  · intro r c ch hr; exact absurd hr (by simp [emptyFrame, solidFrame])
  · intro r c ch hr; exact absurd hr (by simp [emptyFrame, solidFrame])
  · rw [h]; simp [Flt.lt]

end PSNRReal

/-! ## SSIM -/

section SSIM

variable {K : Type} [LinearOrderedField K]

/-- The map entry that `calculateSSIM` divides is the quotient of the numerator and the
denominator of the specification. -/
theorem calculateSSIM_eq (lib : OpenCV K) (A B : Mat (Fin 256)) :
    calculateSSIM lib A B = ssimMeanOfChannel lib A B 0 := by
  simp only [calculateSSIM, ssimMeanOfChannel, cvMean, Mat.div, Mat.mul, Mat.addScalar,
    Mat.scale, Mat.add, Mat.sub, GaussianBlur, convertTo]
  congr 1
  congr 1
  funext r
  congr 1
  funext c
  simp only [ssimNum, ssimDen, localCov, localMean, GaussianBlur, Mat.mul, convertTo]
  congr 1 <;> ring

/-- A weighted average with non-negative weights of total one satisfies
`(sum p x)^2 <= sum p x^2`. -/
theorem weighted_sq_le {ι : Type} (s : Finset ι) (p x : ι → K) (hp : ∀ i ∈ s, 0 ≤ p i)
    (h1 : ∑ i ∈ s, p i = 1) :
    (∑ i ∈ s, p i * x i) ^ 2 ≤ ∑ i ∈ s, p i * (x i * x i) := by
  have hexp : ∀ m : K, ∑ i ∈ s, p i * (x i - m) ^ 2
      = ∑ i ∈ s, p i * (x i * x i) - 2 * m * (∑ i ∈ s, p i * x i) + m ^ 2 * ∑ i ∈ s, p i := by
    intro m
    rw [Finset.mul_sum, Finset.mul_sum, ← Finset.sum_sub_distrib, ← Finset.sum_add_distrib]
    exact Finset.sum_congr rfl (fun i _ => by ring)
  have hnn : 0 ≤ ∑ i ∈ s, p i * (x i - ∑ j ∈ s, p j * x j) ^ 2 :=
    Finset.sum_nonneg (fun i hi => mul_nonneg (hp i hi) (sq_nonneg _))
  rw [hexp, h1] at hnn
  nlinarith

/-- The blurred value at one position as a single weighted sum over the 11x11 window. -/
theorem GaussianBlur_px (lib : OpenCV K) (src : Mat K) (r c ch : Nat) :
    (GaussianBlur lib src (11, 11) 1.5).px r c ch =
      ∑ x ∈ Finset.range 11 ×ˢ Finset.range 11,
        (lib.getGaussianKernel 11 1.5 x.1 * lib.getGaussianKernel 11 1.5 x.2) *
          src.px (lib.borderInterpolate ((r : Int) + (x.1 : Int) - ((5 : Nat) : Int)) src.rows)
            (lib.borderInterpolate ((c : Int) + (x.2 : Int) - ((5 : Nat) : Int)) src.cols) ch := by
  rw [Finset.sum_product]
  rfl

theorem window_weights_sum (lib : OpenCV K) (hk : KernelNormalised lib) :
    ∑ x ∈ Finset.range 11 ×ˢ Finset.range 11,
      (lib.getGaussianKernel 11 1.5 x.1 * lib.getGaussianKernel 11 1.5 x.2) = 1 := by
  rw [Finset.sum_product, ← Finset.sum_mul_sum, hk.2, one_mul]

/-- A normalised blur leaves a channel of constant value unchanged. -/
theorem GaussianBlur_const (lib : OpenCV K) (hk : KernelNormalised lib) (src : Mat K)
    (ch : Nat) (v : K) (hv : ∀ r c, src.px r c ch = v) (r c : Nat) :
    (GaussianBlur lib src (11, 11) 1.5).px r c ch = v := by
  rw [GaussianBlur_px]
  simp only [hv]
  rw [← Finset.sum_mul, window_weights_sum lib hk, one_mul]

/-- The Gaussian-weighted local variance is non-negative. -/
theorem localCov_self_nonneg (lib : OpenCV K) (hk : KernelNormalised lib) (A : Mat (Fin 256))
    (r c ch : Nat) : 0 ≤ localCov lib A A r c ch := by
  have h := weighted_sq_le (Finset.range 11 ×ˢ Finset.range 11)
    (fun x => lib.getGaussianKernel 11 1.5 x.1 * lib.getGaussianKernel 11 1.5 x.2)
    (fun x => (convertTo A (1 : K)).px
      (lib.borderInterpolate ((r : Int) + (x.1 : Int) - ((5 : Nat) : Int)) A.rows)
      (lib.borderInterpolate ((c : Int) + (x.2 : Int) - ((5 : Nat) : Int)) A.cols) ch)
    (fun x _ => mul_nonneg (hk.1 _) (hk.1 _)) (window_weights_sum lib hk)
  simp only [localCov, localMean, GaussianBlur_px]
  simp only [Mat.mul]
  have e1 : (convertTo A (1 : K)).rows = A.rows := rfl
  have e2 : (convertTo A (1 : K)).cols = A.cols := rfl
  simp only [e1, e2]
  nlinarith [h]

theorem ssimDen_pos (lib : OpenCV K) (hk : KernelNormalised lib) (A B : Mat (Fin 256))
    (r c ch : Nat) : 0 < ssimDen lib A B r c ch := by
  have h1 := localCov_self_nonneg lib hk A r c ch
  have h2 := localCov_self_nonneg lib hk B r c ch
  have h3 : (0 : K) < 6.5025 := by norm_num
  have h4 : (0 : K) < 58.5225 := by norm_num
  have h5 := sq_nonneg (localMean lib A r c ch)
  have h6 := sq_nonneg (localMean lib B r c ch)
  exact mul_pos (by linarith) (by linarith)

theorem ssimNum_self (lib : OpenCV K) (F : Mat (Fin 256)) (r c ch : Nat) :
    ssimNum lib F F r c ch = ssimDen lib F F r c ch := by
  simp only [ssimNum, ssimDen]
  ring

/-- With a normalised kernel no division of the SSIM map is by zero, and the result is
the finite mean of the channel-0 quotients. -/
theorem ssimMeanOfChannel_fin (lib : OpenCV K) (hk : KernelNormalised lib)
    (A B : Mat (Fin 256)) (ch : Nat) (hne : 0 < A.rows * A.cols) :
    ssimMeanOfChannel lib A B ch =
      .fin ((∑ r ∈ Finset.range A.rows, ∑ c ∈ Finset.range A.cols,
        ssimNum lib A B r c ch / ssimDen lib A B r c ch) / ((A.rows * A.cols : Nat) : K)) := by
  have hentry : ∀ r c, fdiv (ssimNum lib A B r c ch) (ssimDen lib A B r c ch)
      = .fin (ssimNum lib A B r c ch / ssimDen lib A B r c ch) :=
    fun r c => fdiv_of_ne_zero _ _ (ssimDen_pos lib hk A B r c ch).ne'
  simp only [ssimMeanOfChannel, hentry, Flt.accumulate_fin, zero_add, if_neg hne.ne',
    Flt.mul_fin_fin]
  congr 1
  ring

theorem localMean_solid (lib : OpenCV K) (hk : KernelNormalised lib) (R C : Nat)
    (b g r : Fin 256) (i j ch : Nat) :
    localMean lib (solidFrame R C b g r) i j ch
      = (((solidFrame R C b g r).px 0 0 ch).val : K) := by
  rw [localMean]
  exact GaussianBlur_const lib hk _ ch _ (fun _ _ => by simp [convertTo, solidFrame]) i j

theorem localCov_solid (lib : OpenCV K) (hk : KernelNormalised lib) (R C : Nat)
    (b g r b2 g2 r2 : Fin 256) (i j ch : Nat) :
    localCov lib (solidFrame R C b g r) (solidFrame R C b2 g2 r2) i j ch = 0 := by
  rw [localCov, localMean_solid lib hk, localMean_solid lib hk,
    GaussianBlur_const lib hk _ ch
      ((((solidFrame R C b g r).px 0 0 ch).val : K) * (((solidFrame R C b2 g2 r2).px 0 0 ch).val : K))
      (fun _ _ => by simp [Mat.mul, convertTo, solidFrame]) i j]
  ring

theorem sampleOpenCV_kernel : KernelNormalised sampleOpenCV := by
  constructor
  · intro i
    simp only [sampleOpenCV]
    split_ifs
    · positivity
    · exact le_refl _
  · simp [sampleOpenCV, Finset.sum_range_succ, Nat.choose]
    norm_num

/-- C3 (amended). `calculateSSIM(A, B)` is the arithmetic mean, over every pixel, of the
channel-0 entries of the SSIM map
((2*mu1*mu2 + C1)*(2*sigma12 + C2)) / ((mu1^2 + mu2^2 + C1)*(sigma1^2 + sigma2^2 + C2)),
with C1 = 6.5025 and C2 = 58.5225; channels 1 and 2 of the map do not enter the result.
With a normalised kernel and at least one pixel no division is by zero and the mean is the
finite quotient of the sum of the entries by `rows * cols`. -/
theorem calculateSSIM_is_channel0_mean (lib : OpenCV K) (A B : Mat (Fin 256)) :
    calculateSSIM lib A B = ssimMeanOfChannel lib A B 0 ∧
    (KernelNormalised lib → 0 < A.rows * A.cols →
      calculateSSIM lib A B =
        .fin ((∑ r ∈ Finset.range A.rows, ∑ c ∈ Finset.range A.cols,
          ssimNum lib A B r c 0 / ssimDen lib A B r c 0) / ((A.rows * A.cols : Nat) : K))) := by
  refine ⟨calculateSSIM_eq lib A B, fun hk hne => ?_⟩
  rw [calculateSSIM_eq, ssimMeanOfChannel_fin lib hk A B 0 hne]

/-- C5. For any non-empty frame F and a normalised non-negative kernel,
`calculateSSIM(F, F)` is exactly 1: every entry of the SSIM map of F against itself has
equal numerator and denominator, the local variance is non-negative, and the denominator is
positive. -/
theorem calculateSSIM_self_eq_one (lib : OpenCV K) (hk : KernelNormalised lib)
    (F : Mat (Fin 256)) (hne : 0 < F.rows ∧ 0 < F.cols) :
    calculateSSIM lib F F = .fin 1 ∧
    ∀ r c ch, ssimNum lib F F r c ch = ssimDen lib F F r c ch ∧
      0 ≤ localCov lib F F r c ch ∧ 0 < ssimDen lib F F r c ch := by
  have hN : 0 < F.rows * F.cols := Nat.mul_pos hne.1 hne.2
  have hNK : ((F.rows * F.cols : Nat) : K) ≠ 0 := by exact_mod_cast hN.ne'
  refine ⟨?_, fun r c ch => ⟨ssimNum_self lib F r c ch, localCov_self_nonneg lib hk F r c ch,
    ssimDen_pos lib hk F F r c ch⟩⟩
  rw [calculateSSIM_eq, ssimMeanOfChannel_fin lib hk F F 0 hN]
  have hq : ∀ r c, ssimNum lib F F r c 0 / ssimDen lib F F r c 0 = 1 := fun r c => by
    rw [ssimNum_self, div_self (ssimDen_pos lib hk F F r c 0).ne']
  simp only [hq, Finset.sum_const, Finset.card_range, nsmul_eq_mul, mul_one]
  congr 1
  rw [← Nat.cast_mul, div_self hNK]

/-- The 1x1 frames A = (0,0,0) and B = (0,255,0) under any normalised kernel and any
border rule: the value returned by `calculateSSIM` and the mean over all three channels. -/
theorem ssim_of_black_and_green_pixel (lib : OpenCV K) (hk : KernelNormalised lib) :
    calculateSSIM lib (solidFrame 1 1 0 0 0) (solidFrame 1 1 0 255 0) = .fin 1 ∧
    ssimMeanAllChannels lib (solidFrame 1 1 0 0 0) (solidFrame 1 1 0 255 0)
      = .fin ((1 + 6.5025 / (65025 + 6.5025) + 1) * (1 / 3)) := by
  have hr : (solidFrame 1 1 0 0 0).rows = 1 := rfl
  have hc : (solidFrame 1 1 0 0 0).cols = 1 := rfl
  have hnum : ∀ ch, ssimNum lib (solidFrame 1 1 0 0 0) (solidFrame 1 1 0 255 0) 0 0 ch
      = 6.5025 * 58.5225 := by
    intro ch
    rw [ssimNum, localMean_solid lib hk, localMean_solid lib hk, localCov_solid lib hk]
    simp [solidFrame]
  have hden : ∀ ch, ssimDen lib (solidFrame 1 1 0 0 0) (solidFrame 1 1 0 255 0) 0 0 ch
      = ((((solidFrame 1 1 0 255 0).px 0 0 ch).val : K) ^ 2 + 6.5025) * 58.5225 := by
    intro ch
    rw [ssimDen, localMean_solid lib hk, localMean_solid lib hk, localCov_solid lib hk,
      localCov_solid lib hk]
    simp [solidFrame]
  constructor
  · rw [calculateSSIM_eq, ssimMeanOfChannel_fin lib hk _ _ 0 (by decide)]
    simp only [hr, hc, Finset.sum_range_one, hnum, hden]
    simp [solidFrame]
    norm_num
  · have h255 : ((255 : Fin 256).val) = 255 := rfl
    simp only [ssimMeanAllChannels, Flt.accumulate, hr, hc, hnum, hden]
    simp only [solidFrame, fdiv]
    norm_num
    rw [h255]
    norm_num

end SSIM

section SSIMConcrete

/-- C5 (witness). The solid 100x100 frame (128,128,128) under the sample kernel. -/
theorem calculateSSIM_self_solid_100 :
    calculateSSIM sampleOpenCV (solidFrame 100 100 128 128 128) (solidFrame 100 100 128 128 128)
      = .fin 1 :=
  (calculateSSIM_self_eq_one sampleOpenCV sampleOpenCV_kernel (solidFrame 100 100 128 128 128)
    ⟨by decide, by decide⟩).1

/-- C3 (witness). The second part of the statement at the solid 2x2 frames of values 100
and 101 under the sample kernel. -/
theorem calculateSSIM_is_channel0_mean_solid :
    calculateSSIM sampleOpenCV (solidFrame 2 2 100 100 100) (solidFrame 2 2 101 101 101) =
      .fin ((∑ r ∈ Finset.range 2, ∑ c ∈ Finset.range 2,
        ssimNum sampleOpenCV (solidFrame 2 2 100 100 100) (solidFrame 2 2 101 101 101) r c 0 /
        ssimDen sampleOpenCV (solidFrame 2 2 100 100 100) (solidFrame 2 2 101 101 101) r c 0)
          / ((2 * 2 : Nat) : ℚ)) :=
  (calculateSSIM_is_channel0_mean sampleOpenCV (solidFrame 2 2 100 100 100)
    (solidFrame 2 2 101 101 101)).2 sampleOpenCV_kernel (by decide)

/-- C3 (counterexample). For the 1x1 frames A = (0,0,0) and B = (0,255,0) the channel-0
entry of the SSIM map is 1 and `calculateSSIM` returns 1, while the mean over all three
channels, which the claim describes, is below 1 because the channel-1 entry is
`C1 / (255^2 + C1)`. -/
theorem calculateSSIM_ignores_channels_1_2 :
    calculateSSIM sampleOpenCV (solidFrame 1 1 0 0 0) (solidFrame 1 1 0 255 0) = .fin 1 ∧
    ssimMeanAllChannels sampleOpenCV (solidFrame 1 1 0 0 0) (solidFrame 1 1 0 255 0)
      = .fin ((1 + 6.5025 / (65025 + 6.5025) + 1) * (1 / 3)) ∧
    calculateSSIM sampleOpenCV (solidFrame 1 1 0 0 0) (solidFrame 1 1 0 255 0) ≠
      ssimMeanAllChannels sampleOpenCV (solidFrame 1 1 0 0 0) (solidFrame 1 1 0 255 0) := by
  obtain ⟨h1, h2⟩ := ssim_of_black_and_green_pixel sampleOpenCV sampleOpenCV_kernel
  refine ⟨h1, h2, ?_⟩
  rw [h1, h2]
  intro h
  injection h with h
  norm_num at h

end SSIMConcrete

/-! ## Range of the first seven features -/

section FeatureRange

variable {K : Type} [LinearOrderedField K]

theorem convertTo_unit (frame : Mat (Fin 256)) (r c ch : Nat) :
    0 ≤ (convertTo frame (1 / 255 : K)).px r c ch ∧
      (convertTo frame (1 / 255 : K)).px r c ch ≤ 1 := by
  have h : ((frame.px r c ch).val : K) ≤ 255 := by
    have : (frame.px r c ch).val ≤ 255 := by omega
    exact_mod_cast this
  have h0 : (0 : K) ≤ ((frame.px r c ch).val : K) := Nat.cast_nonneg _
  simp only [convertTo]
  constructor
  · positivity
  · linarith

/-- The mean of values in `[0, 1]` over a non-empty grid lies in `[0, 1]`. -/
theorem grid_mean_unit (R C : Nat) (f : Nat → Nat → K) (hN : 0 < R * C)
    (hf : ∀ r c, 0 ≤ f r c ∧ f r c ≤ 1) :
    0 ≤ (∑ r ∈ Finset.range R, ∑ c ∈ Finset.range C, f r c) / ((R * C : Nat) : K) ∧
      (∑ r ∈ Finset.range R, ∑ c ∈ Finset.range C, f r c) / ((R * C : Nat) : K) ≤ 1 := by
  have hNK : (0 : K) < ((R * C : Nat) : K) := by exact_mod_cast hN
  have h0 : 0 ≤ ∑ r ∈ Finset.range R, ∑ c ∈ Finset.range C, f r c :=
    Finset.sum_nonneg (fun r _ => Finset.sum_nonneg (fun c _ => (hf r c).1))
  have h1 : ∑ r ∈ Finset.range R, ∑ c ∈ Finset.range C, f r c ≤ ((R * C : Nat) : K) := by
    calc ∑ r ∈ Finset.range R, ∑ c ∈ Finset.range C, f r c
        ≤ ∑ r ∈ Finset.range R, ∑ c ∈ Finset.range C, (1 : K) :=
          Finset.sum_le_sum (fun r _ => Finset.sum_le_sum (fun c _ => (hf r c).2))
      _ = ((R * C : Nat) : K) := by simp
  exact ⟨div_nonneg h0 hNK.le, (div_le_one hNK).mpr h1⟩

theorem countNonZero_le (m : Mat (Fin 256)) : countNonZero m ≤ m.rows * m.cols := by
  calc countNonZero m
      ≤ ∑ r ∈ Finset.range m.rows, ∑ c ∈ Finset.range m.cols, 1 :=
        Finset.sum_le_sum (fun r _ => Finset.sum_le_sum (fun c _ => by split <;> omega))
    _ = m.rows * m.cols := by simp

/-- C8. For any frame with 8-bit samples on which the OpenCV calls of `extractFeatures`
return with their documented results (`cv::meanStdDev` accepts the frame, which it does
exactly when the frame has a pixel, and gives the per-channel mean and standard deviation;
`cv::Canny` gives an edge map of the size of the frame), the first seven entries of
`extractFeatures` are finite numbers in [0,1]: positions 0-5 are the per-channel mean and
standard deviation (channel 0 mean, channel 0 stddev, channel 1 mean, ...) of the samples
divided by 255, and position 6 is the number of pixels the edge detector marks divided by
rows * cols. -/
theorem extractFeatures_first_seven_in_unit (lib : OpenCV K) (frame : Mat (Fin 256))
    (hcall : MeanStdDevSpec (convertTo frame (1 / 255)) (lib.meanStdDev (convertTo frame (1 / 255))))
    (hcanny : CannySameSize lib frame) :
    (∀ i, i < 7 → ((extractFeatures lib frame).getD i .nan).InUnit) ∧
    (∀ ch, ch < 3 →
      (extractFeatures lib frame).getD (2 * ch) .nan
        = .fin ((∑ r ∈ Finset.range frame.rows, ∑ c ∈ Finset.range frame.cols,
            ((frame.px r c ch).val : K) * (1 / 255)) / ((frame.rows * frame.cols : Nat) : K)) ∧
      (extractFeatures lib frame).getD (2 * ch + 1) .nan
        = .fin ((lib.meanStdDev (convertTo frame (1 / 255))).2 ch) ∧
      0 ≤ (lib.meanStdDev (convertTo frame (1 / 255))).2 ch ∧
      (lib.meanStdDev (convertTo frame (1 / 255))).2 ch ^ 2
        = (∑ r ∈ Finset.range frame.rows, ∑ c ∈ Finset.range frame.cols,
            (((frame.px r c ch).val : K) * (1 / 255)
              - (lib.meanStdDev (convertTo frame (1 / 255))).1 ch) ^ 2)
          / ((frame.rows * frame.cols : Nat) : K)) ∧
    (extractFeatures lib frame).getD 6 .nan
      = .fin (((countNonZero (lib.Canny frame 100 200) : Nat) : K)
          / ((frame.rows * frame.cols : Nat) : K)) := by
  have hne : 0 < frame.rows * frame.cols := hcall.1
  have hstat := hcall.2
  have hNK : (0 : K) < ((frame.rows * frame.cols : Nat) : K) := by exact_mod_cast hne
  have hmean : ∀ ch, ch < 3 → (lib.meanStdDev (convertTo frame (1 / 255))).1 ch
      = (∑ r ∈ Finset.range frame.rows, ∑ c ∈ Finset.range frame.cols,
          ((frame.px r c ch).val : K) * (1 / 255)) / ((frame.rows * frame.cols : Nat) : K) :=
    fun ch hch => (hstat ch hch).1
  have hmu : ∀ ch, ch < 3 → 0 ≤ (lib.meanStdDev (convertTo frame (1 / 255))).1 ch ∧
      (lib.meanStdDev (convertTo frame (1 / 255))).1 ch ≤ 1 := by
    intro ch hch
    rw [(hstat ch hch).1]
    exact grid_mean_unit frame.rows frame.cols _ hne (fun r c => convertTo_unit frame r c ch)
  have hsd : ∀ ch, ch < 3 → 0 ≤ (lib.meanStdDev (convertTo frame (1 / 255))).2 ch ∧
      (lib.meanStdDev (convertTo frame (1 / 255))).2 ch ≤ 1 := by
    intro ch hch
    obtain ⟨_, hs0, hs2⟩ := hstat ch hch
    refine ⟨hs0, ?_⟩
    have hvar := (grid_mean_unit frame.rows frame.cols
      (fun r c => ((convertTo frame (1 / 255 : K)).px r c ch
        - (lib.meanStdDev (convertTo frame (1 / 255))).1 ch) ^ 2) hne
      (fun r c => by
        have hp := convertTo_unit (K := K) frame r c ch
        have hm := hmu ch hch
        constructor
        · positivity
        · rw [sq_le_one_iff_abs_le_one, abs_le]
          constructor <;> linarith [hp.1, hp.2, hm.1, hm.2])).2
    have hs2le : (lib.meanStdDev (convertTo frame (1 / 255))).2 ch ^ 2 ≤ 1 := by
      rw [hs2]; exact hvar
    nlinarith
  have hcnt : ((countNonZero (lib.Canny frame 100 200) : Nat) : K)
      ≤ ((frame.rows * frame.cols : Nat) : K) := by
    have := countNonZero_le (lib.Canny frame 100 200)
    rw [hcanny.1, hcanny.2] at this
    exact_mod_cast this
  have h6 : fdiv ((countNonZero (lib.Canny frame 100 200) : Nat) : K)
      ((frame.rows * frame.cols : Nat) : K)
      = .fin (((countNonZero (lib.Canny frame 100 200) : Nat) : K)
          / ((frame.rows * frame.cols : Nat) : K)) := fdiv_of_ne_zero _ _ hNK.ne'
  rw [extractFeatures_eq, h6]
  refine ⟨?_, ?_, ?_⟩
  · intro i hi
    have hcases : i = 0 ∨ i = 1 ∨ i = 2 ∨ i = 3 ∨ i = 4 ∨ i = 5 ∨ i = 6 := by omega
    rcases hcases with h | h | h | h | h | h | h <;> subst h
    · exact ⟨_, rfl, hmu 0 (by norm_num)⟩
    · exact ⟨_, rfl, hsd 0 (by norm_num)⟩
    · exact ⟨_, rfl, hmu 1 (by norm_num)⟩
    · exact ⟨_, rfl, hsd 1 (by norm_num)⟩
    · exact ⟨_, rfl, hmu 2 (by norm_num)⟩
    · exact ⟨_, rfl, hsd 2 (by norm_num)⟩
    · exact ⟨_, rfl, div_nonneg (Nat.cast_nonneg _) hNK.le, (div_le_one hNK).mpr hcnt⟩
  · intro ch hch
    have hcases : ch = 0 ∨ ch = 1 ∨ ch = 2 := by omega
    rcases hcases with h | h | h <;> subst h
    · exact ⟨by rw [← hmean 0 (by norm_num)]; rfl, rfl, (hstat 0 (by norm_num)).2.1,
        (hstat 0 (by norm_num)).2.2⟩
    · exact ⟨by rw [← hmean 1 (by norm_num)]; rfl, rfl, (hstat 1 (by norm_num)).2.1,
        (hstat 1 (by norm_num)).2.2⟩
    · exact ⟨by rw [← hmean 2 (by norm_num)]; rfl, rfl, (hstat 2 (by norm_num)).2.1,
        (hstat 2 (by norm_num)).2.2⟩
  · rfl

end FeatureRange

section FeatureRangeConcrete

/-- The sample library meets the contract of `cv::meanStdDev` on the solid 2x2 frame
(128,128,128). -/
theorem sampleOpenCV_meanStdDev_solid :
    MeanStdDevSpec (convertTo (solidFrame 2 2 128 128 128) (1 / 255 : ℚ))
      (sampleOpenCV.meanStdDev (convertTo (solidFrame 2 2 128 128 128) (1 / 255))) := by
  refine ⟨by decide, ?_⟩
  intro ch _
  have h128 : ((128 : Fin 256).val) = 128 := rfl
  simp only [sampleOpenCV, cvSum, convertTo, solidFrame, ite_self, h128]
  norm_num [Finset.sum_range_succ]

/-- C8 (witness). The solid 2x2 frame (128,128,128) under the sample library, which
returns the exact mean, the deviation zero and an edge map without marked pixels. -/
theorem extractFeatures_first_seven_solid :
    MeanStdDevSpec (convertTo (solidFrame 2 2 128 128 128) (1 / 255 : ℚ))
      (sampleOpenCV.meanStdDev (convertTo (solidFrame 2 2 128 128 128) (1 / 255))) ∧
    CannySameSize sampleOpenCV (solidFrame 2 2 128 128 128) ∧
    ((extractFeatures sampleOpenCV (solidFrame 2 2 128 128 128)).getD 0 .nan).InUnit ∧
    ((extractFeatures sampleOpenCV (solidFrame 2 2 128 128 128)).getD 6 .nan).InUnit :=
  ⟨sampleOpenCV_meanStdDev_solid, ⟨rfl, rfl⟩,
   (extractFeatures_first_seven_in_unit sampleOpenCV (solidFrame 2 2 128 128 128)
      sampleOpenCV_meanStdDev_solid ⟨rfl, rfl⟩).1 0 (by decide),
   (extractFeatures_first_seven_in_unit sampleOpenCV (solidFrame 2 2 128 128 128)
      sampleOpenCV_meanStdDev_solid ⟨rfl, rfl⟩).1 6 (by decide)⟩

end FeatureRangeConcrete

/-! ## The marshaling boundary -/

section Bindings

variable {K : Type} [LinearOrderedField K] [FloorRing K]

theorem numpy_to_mat_error_iff (a : NumpyArray) :
    numpy_to_mat a = .error "Input array must be 3-dimensional" ↔ a.shape.length ≠ 3 := by
  constructor
  · intro h hlen
    simp [numpy_to_mat, hlen] at h
  · intro hlen
    simp [numpy_to_mat, hlen]

/-- C10. At the marshaling boundary `numpy_to_mat` fails with the error "Input array must
be 3-dimensional" if and only if the number of dimensions of the array is not exactly 3;
when an array argument of `analyze_frame`, `calculate_psnr`, `calculate_ssim` or
`optimize_parameters` is rejected this way, the call ends with that error, no core operation
has run, and the state of the `VideoProcessor` (working frame, model weights) is unchanged. -/
theorem bindings_reject_non_3d (cv : OpenCV K) (lm : Libm K) (self : VideoProcessor K)
    (uninit : CompressionParams K) (q : Flt K) (a b : NumpyArray) :
    (numpy_to_mat a = .error "Input array must be 3-dimensional" ↔ a.shape.length ≠ 3) ∧
    (a.shape.length ≠ 3 →
      analyze_frame cv self a = (.error "Input array must be 3-dimensional", self) ∧
      optimize_parameters cv self uninit a q
        = (.error "Input array must be 3-dimensional", self)) ∧
    (a.shape.length ≠ 3 ∨ b.shape.length ≠ 3 →
      calculate_psnr lm self a b = (.error "Input array must be 3-dimensional", self) ∧
      calculate_ssim cv self a b = (.error "Input array must be 3-dimensional", self)) := by
  refine ⟨numpy_to_mat_error_iff a, fun ha => ?_, fun hab => ?_⟩
  · have h := (numpy_to_mat_error_iff a).mpr ha
    simp [analyze_frame, optimize_parameters, h]
  · by_cases ha : a.shape.length ≠ 3
    · have h := (numpy_to_mat_error_iff a).mpr ha
      simp [calculate_psnr, calculate_ssim, h]
    · have hb : b.shape.length ≠ 3 := hab.resolve_left ha
      have h := (numpy_to_mat_error_iff b).mpr hb
      have ha3 : a.shape.length = 3 := not_not.mp ha
      have hok : ∃ m, numpy_to_mat a = .ok m := by
        simp [numpy_to_mat, ha3]
      obtain ⟨m, hm⟩ := hok
      simp [calculate_psnr, calculate_ssim, h, hm]

end Bindings

section Witnesses

/-- C10 (witness). A 2-dimensional array of shape (4, 4) is rejected by every binding and
the freshly constructed processor is left as it was. -/
theorem bindings_reject_2d_array :
    analyze_frame sampleOpenCV VideoProcessor.new ⟨[4, 4], List.replicate 16 0⟩
      = (.error "Input array must be 3-dimensional", VideoProcessor.new) ∧
    optimize_parameters sampleOpenCV VideoProcessor.new ⟨0, 0, 0, "", .fin 0⟩
        ⟨[4, 4], List.replicate 16 0⟩ (.fin (9 / 10 : ℚ))
      = (.error "Input array must be 3-dimensional", VideoProcessor.new) :=
  (bindings_reject_non_3d sampleOpenCV ⟨fun x => x, fun x => x⟩ VideoProcessor.new
    ⟨0, 0, 0, "", .fin 0⟩ (.fin (9 / 10 : ℚ)) ⟨[4, 4], List.replicate 16 0⟩
    ⟨[4, 4], List.replicate 16 0⟩).2.1 (by decide)

/-- C9 (witness). The weights of a new processor and a feature vector of 128 entries. -/
theorem predictQuality_is_clamped_dot_new :
    (List.replicate 128 (Flt.fin (1 / 256 : ℚ))).length
      = (VideoProcessor.new : VideoProcessor ℚ).model_weights_.length ∧
    (predictQuality VideoProcessor.new (List.replicate 128 (Flt.fin (1 / 256 : ℚ)))).InUnit :=
  ⟨by simp [VideoProcessor.new],
   (predictQuality_is_clamped_dot VideoProcessor.new (List.replicate 128 (Flt.fin (1 / 256 : ℚ)))
      (by simp [VideoProcessor.new])).2.1⟩

/-- C2 (witness). The second part of the statement at two solid 2x2 frames. -/
theorem calculatePSNR_from_channel0_mse_solid :
    calculatePSNR realLibm (solidFrame 2 2 100 100 100) (solidFrame 2 2 90 100 100) =
      if (∑ r ∈ Finset.range (solidFrame 2 2 100 100 100).rows,
            ∑ c ∈ Finset.range (solidFrame 2 2 100 100 100).cols,
              sqAbsDiff (solidFrame 2 2 100 100 100) (solidFrame 2 2 90 100 100) r c 0)
          / (((solidFrame 2 2 100 100 100).rows * (solidFrame 2 2 100 100 100).cols : Nat) : ℝ)
          ≤ 1 / 10000000000
      then .fin 100
      else .fin (20 * Real.logb 10 (1 / Real.sqrt
        ((∑ r ∈ Finset.range (solidFrame 2 2 100 100 100).rows,
            ∑ c ∈ Finset.range (solidFrame 2 2 100 100 100).cols,
              sqAbsDiff (solidFrame 2 2 100 100 100) (solidFrame 2 2 90 100 100) r c 0)
          / (((solidFrame 2 2 100 100 100).rows * (solidFrame 2 2 100 100 100).cols : Nat) : ℝ)))) :=
  (calculatePSNR_from_channel0_mse (solidFrame 2 2 100 100 100) (solidFrame 2 2 90 100 100)).2
    (by decide)

end Witnesses

end VideoOptimizer
